import Mathlib

/-!
Verification of the typography/compositing engine of the `content-engine`
repository (`src/ad_generator/typography/`).  The Python sources are shallowly
embedded: Python `int` becomes `ℤ` (or `ℕ` where the source value is a size or
a pixel), Python `float` arithmetic is modelled exactly over `ℚ`, Python
dictionaries (which iterate in insertion order) become association lists
`List (String × α)` whose keys are duplicate-free, and code that can raise an
exception returns `Except String α`.
-/

namespace ContentEngine

/-! ## Bounding boxes and overlap detection
Embeds `TextPlacementEngine.check_text_overlaps` and
`TextPlacementEngine.resolve_text_overlaps`
(`src/ad_generator/typography/text_placement.py`).
A bounding box is the tuple `(left, top, right, bottom)` produced by
`get_text_bounding_boxes`. -/

structure Box where
  left : ℤ
  top : ℤ
  right : ℤ
  bottom : ℤ
deriving DecidableEq, Repr

/-- The overlap test of `check_text_overlaps` (text_placement.py lines 687-688):
`box1[0] < box2[2] and box1[2] > box2[0] and box1[1] < box2[3] and box1[3] > box2[1]`. -/
def boxesOverlap (b1 b2 : Box) : Prop :=
  b1.left < b2.right ∧ b1.right > b2.left ∧ b1.top < b2.bottom ∧ b1.bottom > b2.top

instance (b1 b2 : Box) : Decidable (boxesOverlap b1 b2) := by
  unfold boxesOverlap; infer_instance

/-- Area of the intersection of two axis-aligned rectangles (used to state that
the overlap test of the source is exactly "strictly positive intersection area"). -/
def interArea (b1 b2 : Box) : ℤ :=
  max 0 (min b1.right b2.right - max b1.left b2.left) *
    max 0 (min b1.bottom b2.bottom - max b1.top b2.top)

/-- `TextPlacementEngine.check_text_overlaps`: the double loop
`for i in range(len(elements)): for j in range(i+1, len(elements))` appending
the pair `(elements[i], elements[j])` whenever the two boxes overlap. -/
def checkTextOverlaps : List (String × Box) → List (String × String)
  | [] => []
  | (e, b) :: rest =>
      ((rest.filter (fun p => decide (boxesOverlap b p.2))).map (fun p => (e, p.1)))
        ++ checkTextOverlaps rest

/-- The `element_priority` dictionary of `resolve_text_overlaps`
(lines 715-721), with `.get(name, 10)` for unknown elements. -/
def elementPriority (name : String) : ℕ :=
  if name = "brand" then 1
  else if name = "headline" then 2
  else if name = "subheadline" then 3
  else if name = "body" then 4
  else if name = "cta" then 5
  else 10

/-- Replace the value stored at key `k` (Python `d[k] = v` on a present key). -/
def setEntry (l : List (String × α)) (k : String) (v : α) : List (String × α) :=
  l.map (fun p => if p.1 = k then (k, v) else p)

/-- `int(0.02 * image_height)` of line 739, the padding of 2% of the image
height: `int()` truncates the product `0.02 * image_height` toward zero, which
on the exact rational value is `Int.div (2 * imageHeight) 100` (for the
nonnegative heights that occur this is the floor of `imageHeight / 50`). -/
def overlapPadding (imageHeight : ℤ) : ℤ :=
  Int.tdiv (2 * imageHeight) 100

/-- One iteration of the `for element1, element2 in overlaps` loop of
`resolve_text_overlaps` (lines 713-756).  The state is the pair
(positions, bounding boxes); the source mutates both dictionaries in place
(`resolved_positions` is a shallow copy, `bounding_boxes` is updated on
line 756), which the fold makes explicit.  Keys named in `overlaps` are
present in both dictionaries whenever the pairs come from
`check_text_overlaps`, so the `getD` defaults are never consulted there. -/
def resolveStep (imageHeight : ℤ)
    (acc : List (String × (ℤ × ℤ)) × List (String × Box)) (pair : String × String) :
    List (String × (ℤ × ℤ)) × List (String × Box) :=
  let positions := acc.1
  let boundingBoxes := acc.2
  let element1 := pair.1
  let element2 := pair.2
  let elementToMove :=
    if elementPriority element1 < elementPriority element2 then element2 else element1
  let fixedElement :=
    if elementPriority element1 < elementPriority element2 then element1 else element2
  let boxMove := (boundingBoxes.lookup elementToMove).getD ⟨0, 0, 0, 0⟩
  let boxFixed := (boundingBoxes.lookup fixedElement).getD ⟨0, 0, 0, 0⟩
  let overlapY := min boxMove.bottom boxFixed.bottom - max boxMove.top boxFixed.top
  let padding := overlapPadding imageHeight
  let xy := (positions.lookup elementToMove).getD (0, 0)
  let newY :=
    if boxMove.top < boxFixed.top then boxMove.top - overlapY - padding
    else xy.2 + overlapY + padding
  let h := boxMove.bottom - boxMove.top
  (setEntry positions elementToMove (xy.1, newY),
   setEntry boundingBoxes elementToMove ⟨boxMove.left, newY, boxMove.right, newY + h⟩)

/-- `TextPlacementEngine.resolve_text_overlaps`.  Returns the updated positions
together with the updated bounding boxes (the source returns the positions and
mutates the `bounding_boxes` dictionary of the caller in place). -/
def resolveTextOverlaps (positions : List (String × (ℤ × ℤ)))
    (boundingBoxes : List (String × Box))
    (overlaps : List (String × String)) (imageHeight : ℤ) :
    List (String × (ℤ × ℤ)) × List (String × Box) :=
  overlaps.foldl (resolveStep imageHeight) (positions, boundingBoxes)

/-! ### Helper lemmas about overlap detection -/

theorem boxesOverlap_symm (b1 b2 : Box) : boxesOverlap b1 b2 ↔ boxesOverlap b2 b1 := by
  unfold boxesOverlap
  constructor <;> (intro h; exact ⟨h.2.1, h.1, h.2.2.2, h.2.2.1⟩)

/-- For nondegenerate rectangles the overlap test of the source is exactly
"the intersection has strictly positive area". -/
theorem interArea_pos_iff (b1 b2 : Box)
    (hb1 : b1.left < b1.right) (hb2 : b1.top < b1.bottom)
    (hb3 : b2.left < b2.right) (hb4 : b2.top < b2.bottom) :
    boxesOverlap b1 b2 ↔ 0 < interArea b1 b2 := by
  unfold interArea boxesOverlap
  have hA : (0:ℤ) ≤ max 0 (min b1.right b2.right - max b1.left b2.left) := le_max_left 0 _
  have hB : (0:ℤ) ≤ max 0 (min b1.bottom b2.bottom - max b1.top b2.top) := le_max_left 0 _
  constructor
  · intro h
    apply mul_pos <;> omega
  · intro h
    rcases mul_pos_iff.mp h with ⟨h1, h2⟩ | ⟨h1, _⟩
    · omega
    · omega

/-- In a list with duplicate-free keys, a key determines its value. -/
theorem keyFun {α : Type} {l : List (String × α)} (hnd : (l.map Prod.fst).Nodup)
    {k : String} {v1 v2 : α} (h1 : (k, v1) ∈ l) (h2 : (k, v2) ∈ l) : v1 = v2 := by
  induction l with
  | nil => cases h1
  | cons hd rest ih =>
    obtain ⟨e, w⟩ := hd
    simp only [List.map_cons, List.nodup_cons] at hnd
    rcases List.mem_cons.mp h1 with h1a | h1a
    · rcases List.mem_cons.mp h2 with h2a | h2a
      · rw [Prod.mk.injEq] at h1a h2a
        exact h1a.2.trans h2a.2.symm
      · rw [Prod.mk.injEq] at h1a
        obtain ⟨hk, -⟩ := h1a
        subst hk
        exact absurd (List.mem_map_of_mem Prod.fst h2a) hnd.1
    · rcases List.mem_cons.mp h2 with h2a | h2a
      · rw [Prod.mk.injEq] at h2a
        obtain ⟨hk, -⟩ := h2a
        subst hk
        exact absurd (List.mem_map_of_mem Prod.fst h1a) hnd.1
      · exact ih hnd.2 h1a h2a

/-- Every pair reported by `check_text_overlaps` comes from two entries whose
boxes overlap (the first-named element precedes the second in the dictionary). -/
theorem checkTextOverlaps_sound {bs : List (String × Box)} {a b : String}
    (h : (a, b) ∈ checkTextOverlaps bs) :
    ∃ ba bb, (a, ba) ∈ bs ∧ (b, bb) ∈ bs ∧ boxesOverlap ba bb := by
  induction bs with
  | nil => cases h
  | cons hd rest ih =>
    obtain ⟨e, bx⟩ := hd
    rcases List.mem_append.mp h with hm | hm
    · obtain ⟨p, hp, hpe⟩ := List.mem_map.mp hm
      obtain ⟨hpr, hpo⟩ := List.mem_filter.mp hp
      rw [Prod.mk.injEq] at hpe
      obtain ⟨he, hb⟩ := hpe
      refine ⟨bx, p.2, ?_, List.mem_cons_of_mem _ ?_, of_decide_eq_true hpo⟩
      · rw [← he]; exact List.mem_cons_self _ _
      · rw [← hb]; exact hpr
    · obtain ⟨ba, bb, h1, h2, h3⟩ := ih hm
      exact ⟨ba, bb, List.mem_cons_of_mem _ h1, List.mem_cons_of_mem _ h2, h3⟩

/-- Two distinct entries whose boxes overlap are reported in one of the two
orders. -/
theorem checkTextOverlaps_complete {bs : List (String × Box)}
    (hnd : (bs.map Prod.fst).Nodup) {a b : String} {ba bb : Box}
    (ha : (a, ba) ∈ bs) (hb : (b, bb) ∈ bs) (hab : a ≠ b)
    (hov : boxesOverlap ba bb) :
    (a, b) ∈ checkTextOverlaps bs ∨ (b, a) ∈ checkTextOverlaps bs := by
  induction bs with
  | nil => cases ha
  | cons hd rest ih =>
    obtain ⟨e, bx⟩ := hd
    simp only [List.map_cons, List.nodup_cons] at hnd
    rcases List.mem_cons.mp ha with ha1 | ha1 <;> rcases List.mem_cons.mp hb with hb1 | hb1
    · rw [Prod.mk.injEq] at ha1 hb1
      exact absurd (ha1.1.trans hb1.1.symm) hab
    · rw [Prod.mk.injEq] at ha1
      obtain ⟨he, hbox⟩ := ha1
      subst he; subst hbox
      left
      apply List.mem_append.mpr; left
      apply List.mem_map.mpr
      exact ⟨(b, bb), List.mem_filter.mpr ⟨hb1, decide_eq_true hov⟩, rfl⟩
    · rw [Prod.mk.injEq] at hb1
      obtain ⟨he, hbox⟩ := hb1
      subst he; subst hbox
      right
      apply List.mem_append.mpr; left
      apply List.mem_map.mpr
      exact ⟨(a, ba), List.mem_filter.mpr ⟨ha1,
        decide_eq_true ((boxesOverlap_symm ba bb).mp hov)⟩, rfl⟩
    · rcases ih hnd.2 ha1 hb1 with h | h
      · exact Or.inl (List.mem_append.mpr (Or.inr h))
      · exact Or.inr (List.mem_append.mpr (Or.inr h))

theorem count_mapPair_le_one {e b : String} :
    ∀ ks : List String, ks.Nodup → ((ks.map (fun k => (e, k))).count (e, b)) ≤ 1 := by
  intro ks
  induction ks with
  | nil => simp
  | cons k ks ih =>
    intro hnd
    obtain ⟨hk, hnd2⟩ := List.nodup_cons.mp hnd
    rw [List.map_cons, List.count_cons]
    by_cases hkb : k = b
    · subst hkb
      have hz : ((ks.map (fun k2 => (e, k2))).count (e, k)) = 0 := by
        apply List.count_eq_zero.mpr
        intro hm
        obtain ⟨u, hu, hue⟩ := List.mem_map.mp hm
        rw [Prod.mk.injEq] at hue
        exact hk (hue.2 ▸ hu)
      simp [hz]
    · have hne : ¬(((e, k) : String × String) == (e, b)) = true := by
        intro hcon
        rw [beq_iff_eq, Prod.mk.injEq] at hcon
        exact hkb hcon.2
      simp only [hne, if_false]
      simpa using ih hnd2

theorem count_pairHead_le_one (e b : String) (rest : List (String × Box))
    (hnd : (rest.map Prod.fst).Nodup) (f : String × Box → Bool) :
    ((rest.filter f).map (fun p => (e, p.1))).count (e, b) ≤ 1 := by
  have hmap : (rest.filter f).map (fun p => (e, p.1))
      = ((rest.filter f).map Prod.fst).map (fun k => (e, k)) := by
    simp [List.map_map, Function.comp]
  rw [hmap]
  exact count_mapPair_le_one _ (hnd.sublist ((List.filter_sublist rest).map Prod.fst))

theorem count_pairHead_ne (e a b : String) (rest : List (String × Box))
    (hne : a ≠ e) (f : String × Box → Bool) :
    ((rest.filter f).map (fun p => (e, p.1))).count (a, b) = 0 := by
  apply List.count_eq_zero.mpr
  intro hm
  obtain ⟨p, _, hpe⟩ := List.mem_map.mp hm
  rw [Prod.mk.injEq] at hpe
  exact hne hpe.1.symm

/-- Under duplicate-free keys, each unordered pair is reported at most once. -/
theorem checkTextOverlaps_count {bs : List (String × Box)}
    (hnd : (bs.map Prod.fst).Nodup) (a b : String) (hab : a ≠ b) :
    (checkTextOverlaps bs).count (a, b) + (checkTextOverlaps bs).count (b, a) ≤ 1 := by
  induction bs with
  | nil => simp [checkTextOverlaps]
  | cons hd rest ih =>
    obtain ⟨e, bx⟩ := hd
    simp only [List.map_cons, List.nodup_cons] at hnd
    have hrec : ∀ x y : String, (x, y) ∈ checkTextOverlaps rest → ∃ v : Box, (x, v) ∈ rest := by
      intro x y hm
      obtain ⟨v, _, hv, _, _⟩ := checkTextOverlaps_sound hm
      exact ⟨v, hv⟩
    simp only [checkTextOverlaps]
    rw [List.count_append, List.count_append]
    by_cases hae : a = e
    · subst hae
      have h1 : (checkTextOverlaps rest).count (a, b) = 0 := by
        apply List.count_eq_zero.mpr
        intro hm
        obtain ⟨v, hv⟩ := hrec _ _ hm
        exact hnd.1 (List.mem_map_of_mem Prod.fst hv)
      have h2 : (checkTextOverlaps rest).count (b, a) = 0 := by
        apply List.count_eq_zero.mpr
        intro hm
        obtain ⟨v', _, _, hv, _⟩ := checkTextOverlaps_sound hm
        exact hnd.1 (List.mem_map_of_mem Prod.fst hv)
      have h3 := count_pairHead_le_one a b rest hnd.2
        (fun p => decide (boxesOverlap bx p.2))
      have h4 := count_pairHead_ne a b a rest
        (Ne.symm hab) (fun p => decide (boxesOverlap bx p.2))
      omega
    · by_cases hbe : b = e
      · subst hbe
        have h1 : (checkTextOverlaps rest).count (b, a) = 0 := by
          apply List.count_eq_zero.mpr
          intro hm
          obtain ⟨v, hv⟩ := hrec _ _ hm
          exact hnd.1 (List.mem_map_of_mem Prod.fst hv)
        have h2 : (checkTextOverlaps rest).count (a, b) = 0 := by
          apply List.count_eq_zero.mpr
          intro hm
          obtain ⟨v', _, _, hv, _⟩ := checkTextOverlaps_sound hm
          exact hnd.1 (List.mem_map_of_mem Prod.fst hv)
        have h3 := count_pairHead_le_one b a rest hnd.2
          (fun p => decide (boxesOverlap bx p.2))
        have h4 := count_pairHead_ne b a b rest
          hae (fun p => decide (boxesOverlap bx p.2))
        omega
      · have h3 := count_pairHead_ne e a b rest
          hae (fun p => decide (boxesOverlap bx p.2))
        have h4 := count_pairHead_ne e b a rest
          hbe (fun p => decide (boxesOverlap bx p.2))
        have h5 := ih hnd.2
        omega

/-- C2: `check_text_overlaps` reports a pair of elements if and only if
`left1 < right2 and right1 > left2 and top1 < bottom2 and bottom1 > top2`,
which for nondegenerate rectangles is exactly "the rectangles intersect with
strictly positive area" (so rectangles that merely touch along an edge or
corner, area 0, are never reported), and each unordered pair is reported at
most once. -/
theorem checkTextOverlaps_correct (bs : List (String × Box))
    (hnd : (bs.map Prod.fst).Nodup) (a b : String) (ba bb : Box)
    (ha : (a, ba) ∈ bs) (hb : (b, bb) ∈ bs) (hab : a ≠ b) :
    (((a, b) ∈ checkTextOverlaps bs ∨ (b, a) ∈ checkTextOverlaps bs)
        ↔ boxesOverlap ba bb)
      ∧ (ba.left < ba.right → ba.top < ba.bottom → bb.left < bb.right →
          bb.top < bb.bottom → (boxesOverlap ba bb ↔ 0 < interArea ba bb))
      ∧ (checkTextOverlaps bs).count (a, b) + (checkTextOverlaps bs).count (b, a) ≤ 1 := by
  refine ⟨⟨?_, ?_⟩, fun h1 h2 h3 h4 => interArea_pos_iff ba bb h1 h2 h3 h4,
    checkTextOverlaps_count hnd a b hab⟩
  · rintro (h | h)
    · obtain ⟨ba', bb', ha', hb', hov⟩ := checkTextOverlaps_sound h
      rw [keyFun hnd ha ha', keyFun hnd hb hb']
      exact hov
    · obtain ⟨bb', ba', hb', ha', hov⟩ := checkTextOverlaps_sound h
      rw [keyFun hnd ha ha', keyFun hnd hb hb']
      exact (boxesOverlap_symm _ _).mp hov
  · intro h
    exact checkTextOverlaps_complete hnd ha hb hab h

/-- Witness for `checkTextOverlaps_correct` at a concrete dictionary. -/
theorem checkTextOverlaps_correct_witness :
    ((("headline", "cta") ∈ checkTextOverlaps
        [("headline", ⟨0, 0, 100, 100⟩), ("cta", ⟨0, 40, 100, 50⟩)]
      ∨ ("cta", "headline") ∈ checkTextOverlaps
        [("headline", ⟨0, 0, 100, 100⟩), ("cta", ⟨0, 40, 100, 50⟩)])
      ↔ boxesOverlap ⟨0, 0, 100, 100⟩ ⟨0, 40, 100, 50⟩)
    ∧ ((0:ℤ) < 100 → (0:ℤ) < 100 → (0:ℤ) < 100 → (40:ℤ) < 50 →
        (boxesOverlap ⟨0, 0, 100, 100⟩ ⟨0, 40, 100, 50⟩
          ↔ 0 < interArea ⟨0, 0, 100, 100⟩ ⟨0, 40, 100, 50⟩))
    ∧ (checkTextOverlaps
          [("headline", ⟨0, 0, 100, 100⟩), ("cta", ⟨0, 40, 100, 50⟩)]).count
            ("headline", "cta")
        + (checkTextOverlaps
          [("headline", ⟨0, 0, 100, 100⟩), ("cta", ⟨0, 40, 100, 50⟩)]).count
            ("cta", "headline") ≤ 1 :=
  checkTextOverlaps_correct _ (by decide) "headline" "cta" _ _
    (by decide) (by decide) (by decide)

/-! ### C1: overlap resolution -/

/-- Concrete positions dictionary used to exhibit that overlap resolution does
not always remove overlaps (position y equals the box top, as produced by
`get_text_bounding_boxes`). -/
def demoPositions : List (String × (ℤ × ℤ)) := [("headline", (0, 0)), ("cta", (0, 40))]

/-- Concrete bounding boxes: the cta box lies vertically strictly inside the
headline box (a tall headline and a small cta). -/
def demoBoxes : List (String × Box) :=
  [("headline", ⟨0, 0, 100, 100⟩), ("cta", ⟨0, 40, 100, 50⟩)]

/-- C1 counterexample: on an image of height 100, `check_text_overlaps` reports
the pair (headline, cta); `resolve_text_overlaps` moves the cta (the lower
priority element) down by the vertical overlap (10) plus the 2% padding (2),
from y = 40 to y = 52 — yet the updated cta box (0, 52, 100, 62) still overlaps
the headline box (0, 0, 100, 100), so the claimed postcondition "after
resolve_text_overlaps no two text elements' bounding boxes overlap" is false. -/
theorem resolveTextOverlaps_leaves_overlap :
    checkTextOverlaps demoBoxes = [("headline", "cta")] ∧
    (resolveTextOverlaps demoPositions demoBoxes (checkTextOverlaps demoBoxes) 100).1
      = [("headline", (0, 0)), ("cta", (0, 52))] ∧
    (resolveTextOverlaps demoPositions demoBoxes (checkTextOverlaps demoBoxes) 100).2
      = [("headline", ⟨0, 0, 100, 100⟩), ("cta", ⟨0, 52, 100, 62⟩)] ∧
    checkTextOverlaps
        (resolveTextOverlaps demoPositions demoBoxes (checkTextOverlaps demoBoxes) 100).2
      ≠ [] := by
  exact ⟨by decide, by decide, by decide, by decide⟩

/-- The y coordinate `resolve_text_overlaps` assigns to the moved element: the
old y minus/plus the vertical overlap amount plus the padding. -/
def resolvedY (bm bf : Box) (y pad : ℤ) : ℤ :=
  if bm.top < bf.top then y - ((min bm.bottom bf.bottom - max bm.top bf.top) + pad)
  else y + ((min bm.bottom bf.bottom - max bm.top bf.top) + pad)

/-- The bounding box of the moved element after resolution (same horizontal
extent and height, new top). -/
def movedBox (bm : Box) (newY : ℤ) : Box :=
  ⟨bm.left, newY, bm.right, newY + (bm.bottom - bm.top)⟩

/-- C1 (amended): for an overlapping pair, `resolve_text_overlaps` moves the
element with the lower priority (higher priority number) vertically by the
vertical overlap amount plus the `int(0.02 * image_height)` padding — upward
when its box top is above the fixed element's box top, downward otherwise —
and updates its bounding box accordingly.  This removes the pair's overlap
when the moved box's vertical span does not strictly contain (moving up),
resp. is not strictly contained in (moving down), the fixed box's span; in
general overlaps can survive resolution (see the counterexample). -/
theorem resolveTextOverlaps_single_pair
    (positions : List (String × (ℤ × ℤ))) (boundingBoxes : List (String × Box))
    (e1 e2 mv fx : String) (imageHeight : ℤ) (bm bf : Box) (x y : ℤ)
    (hmvDef : mv = if elementPriority e1 < elementPriority e2 then e2 else e1)
    (hfxDef : fx = if elementPriority e1 < elementPriority e2 then e1 else e2)
    (hbm : List.lookup mv boundingBoxes = some bm)
    (hbf : List.lookup fx boundingBoxes = some bf)
    (hxy : List.lookup mv positions = some (x, y))
    (hh : 0 ≤ imageHeight)
    (hy : y = bm.top) :
    (resolveTextOverlaps positions boundingBoxes [(e1, e2)] imageHeight).1
        = setEntry positions mv (x, resolvedY bm bf y (overlapPadding imageHeight))
      ∧ (resolveTextOverlaps positions boundingBoxes [(e1, e2)] imageHeight).2
        = setEntry boundingBoxes mv
            (movedBox bm (resolvedY bm bf y (overlapPadding imageHeight)))
      ∧ (bm.top < bf.top → bm.bottom ≤ bf.bottom →
          ¬boxesOverlap (movedBox bm (resolvedY bm bf y (overlapPadding imageHeight))) bf)
      ∧ (bf.top ≤ bm.top → bf.bottom ≤ bm.bottom →
          ¬boxesOverlap (movedBox bm (resolvedY bm bf y (overlapPadding imageHeight))) bf) := by
  have hpad : 0 ≤ overlapPadding imageHeight :=
    Int.tdiv_nonneg (by omega) (by omega)
  subst hmvDef
  subst hfxDef
  subst hy
  unfold resolveTextOverlaps
  rw [List.foldl_cons, List.foldl_nil]
  unfold resolveStep
  simp only [hbm, hbf, hxy, Option.getD_some]
  refine ⟨?_, ?_, ?_, ?_⟩
  · unfold resolvedY
    simp only [sub_sub, add_assoc]
  · unfold resolvedY movedBox
    simp only [sub_sub, add_assoc]
  · intro h1 h2 hov
    unfold movedBox resolvedY boxesOverlap at hov
    rw [if_pos h1] at hov
    dsimp only at hov
    omega
  · intro h1 h2 hov
    unfold movedBox resolvedY boxesOverlap at hov
    dsimp only at hov
    by_cases hc : bm.top < bf.top
    · omega
    · rw [if_neg hc] at hov
      omega

/-- Witness for `resolveTextOverlaps_single_pair` at the concrete demo input. -/
theorem resolveTextOverlaps_single_pair_witness :
    (resolveTextOverlaps demoPositions demoBoxes [("headline", "cta")] 100).1
        = setEntry demoPositions "cta"
            (0, resolvedY ⟨0, 40, 100, 50⟩ ⟨0, 0, 100, 100⟩ 40 (overlapPadding 100))
      ∧ (resolveTextOverlaps demoPositions demoBoxes [("headline", "cta")] 100).2
        = setEntry demoBoxes "cta"
            (movedBox ⟨0, 40, 100, 50⟩
              (resolvedY ⟨0, 40, 100, 50⟩ ⟨0, 0, 100, 100⟩ 40 (overlapPadding 100)))
      ∧ ((40:ℤ) < 0 → (50:ℤ) ≤ 100 →
          ¬boxesOverlap (movedBox ⟨0, 40, 100, 50⟩
            (resolvedY ⟨0, 40, 100, 50⟩ ⟨0, 0, 100, 100⟩ 40 (overlapPadding 100)))
            ⟨0, 0, 100, 100⟩)
      ∧ ((0:ℤ) ≤ 40 → (100:ℤ) ≤ 50 →
          ¬boxesOverlap (movedBox ⟨0, 40, 100, 50⟩
            (resolvedY ⟨0, 40, 100, 50⟩ ⟨0, 0, 100, 100⟩ 40 (overlapPadding 100)))
            ⟨0, 0, 100, 100⟩) :=
  resolveTextOverlaps_single_pair demoPositions demoBoxes
    "headline" "cta" "cta" "headline" 100 ⟨0, 40, 100, 50⟩ ⟨0, 0, 100, 100⟩ 0 40
    (by decide) (by decide) (by decide) (by decide) (by decide) (by decide) (by decide)

/-! ## Image brightness analysis
Embeds `ImageAnalyzer.analyze_brightness_map`
(`src/ad_generator/typography/image_analyzer.py` lines 17-57) and the
identical `TextPlacementEngine._analyze_image_brightness` body, together with
`ColorSchemeGenerator._calculate_image_brightness`
(`src/ad_generator/typography/color_scheme.py` lines 216-229). -/

/-- A grayscale image as PIL's `convert('L')` produces it: a width, a height
and the 8-bit pixel value at each coordinate (x, y). -/
structure GrayImage where
  width : ℕ
  height : ℕ
  pix : ℕ → ℕ → ℕ

/-- Python division `a / b` of two nonnegative integers: the result is exact
(modelled in `ℚ`), and `ZeroDivisionError` is raised when the denominator is
zero. -/
def pydiv (a b : ℕ) : Except String ℚ :=
  if b = 0 then .error "ZeroDivisionError" else .ok ((a : ℚ) / (b : ℚ))

/-- `sum(list(gray.crop((left, upper, right, lower)).getdata()))`: the sum of
the grayscale pixels with `left ≤ x < right` and `upper ≤ y < lower`
(PIL crops are right/bottom exclusive). -/
def cellSum (g : GrayImage) (left upper right lower : ℕ) : ℕ :=
  ∑ y ∈ Finset.Ico upper lower, ∑ x ∈ Finset.Ico left right, g.pix x y

/-- One cell of the 3×3 Rule-of-Thirds grid: the crop at
`(col*cell_width, row*cell_height)` of size `cell_width × cell_height`,
averaged through `brightness = sum / (cell_width * cell_height * 255)`. -/
def cellBrightness (g : GrayImage) (cw ch row col : ℕ) : Except String ℚ :=
  pydiv (cellSum g (col * cw) (row * ch) (col * cw + cw) (row * ch + ch))
    (cw * ch * 255)

/-- `ImageAnalyzer.analyze_brightness_map`: `cell_width = width // 3`,
`cell_height = height // 3`, the fixed loop
`for row in range(3): for col in range(3)` unrolled in the source's row-major
iteration order, with the keys the f-string produces, followed by the
`overall` entry `sum(gray.getdata()) / (width * height * 255)`. -/
def analyzeBrightnessMapExc (g : GrayImage) : Except String (List (String × ℚ)) := do
  let cw := g.width / 3
  let ch := g.height / 3
  let tl ← cellBrightness g cw ch 0 0
  let tc ← cellBrightness g cw ch 0 1
  let tr ← cellBrightness g cw ch 0 2
  let ml ← cellBrightness g cw ch 1 0
  let mc ← cellBrightness g cw ch 1 1
  let mr ← cellBrightness g cw ch 1 2
  let bl ← cellBrightness g cw ch 2 0
  let bc ← cellBrightness g cw ch 2 1
  let br ← cellBrightness g cw ch 2 2
  let overall ← pydiv (cellSum g 0 0 g.width g.height) (g.width * g.height * 255)
  return [("top_left", tl), ("top_center", tc), ("top_right", tr),
    ("middle_left", ml), ("middle_center", mc), ("middle_right", mr),
    ("bottom_left", bl), ("bottom_center", bc), ("bottom_right", br),
    ("overall", overall)]

/-- `ColorSchemeGenerator._calculate_image_brightness`:
`sum(list(gray.getdata())) / (gray.width * gray.height * 255)`. -/
def calculateImageBrightness (g : GrayImage) : Except String ℚ :=
  pydiv (cellSum g 0 0 g.width g.height) (g.width * g.height * 255)

/-- The value the claim assigns to region (row, col): the sum of the grayscale
pixels of the cell divided by `cell_width * cell_height * 255`. -/
def regionAvg (g : GrayImage) (row col : ℕ) : ℚ :=
  (cellSum g (col * (g.width / 3)) (row * (g.height / 3))
      (col * (g.width / 3) + g.width / 3) (row * (g.height / 3) + g.height / 3) : ℚ)
    / ((g.width / 3) * (g.height / 3) * 255 : ℕ)

/-- The value the claim assigns to the `overall` key: the sum of all grayscale
pixels divided by `width * height * 255`. -/
def overallAvg (g : GrayImage) : ℚ :=
  (cellSum g 0 0 g.width g.height : ℚ) / ((g.width * g.height * 255 : ℕ) : ℚ)

theorem pydiv_ok {b : ℕ} (hb : b ≠ 0) (a : ℕ) :
    pydiv a b = .ok ((a : ℚ) / (b : ℚ)) := by
  simp [pydiv, hb]

theorem ok_bind {α β : Type} (a : α) (f : α → Except String β) :
    (Except.ok a >>= f) = f a := rfl

theorem error_bind {α β : Type} (e : String) (f : α → Except String β) :
    ((Except.error e : Except String α) >>= f) = Except.error e := rfl

/-- Shared helper: on an image at least 3×3 every denominator is positive and
the brightness map evaluates to the ten-entry list of region averages. -/
theorem analyzeBrightnessMap_eq_helper (g : GrayImage)
    (hw : 3 ≤ g.width) (hh : 3 ≤ g.height) :
    analyzeBrightnessMapExc g = Except.ok
      [("top_left", regionAvg g 0 0), ("top_center", regionAvg g 0 1),
       ("top_right", regionAvg g 0 2),
       ("middle_left", regionAvg g 1 0), ("middle_center", regionAvg g 1 1),
       ("middle_right", regionAvg g 1 2),
       ("bottom_left", regionAvg g 2 0), ("bottom_center", regionAvg g 2 1),
       ("bottom_right", regionAvg g 2 2),
       ("overall", overallAvg g)] := by
  have hcw : g.width / 3 ≠ 0 := Nat.div_ne_zero_iff (by norm_num) |>.mpr hw
  have hch : g.height / 3 ≠ 0 := Nat.div_ne_zero_iff (by norm_num) |>.mpr hh
  have hcell : (g.width / 3) * (g.height / 3) * 255 ≠ 0 := by
    simp [Nat.mul_ne_zero_iff, hcw, hch]
  have hall : g.width * g.height * 255 ≠ 0 := by
    have h1 : g.width ≠ 0 := by omega
    have h2 : g.height ≠ 0 := by omega
    simp [Nat.mul_ne_zero_iff, h1, h2]
  unfold analyzeBrightnessMapExc cellBrightness
  dsimp only
  rw [pydiv_ok hcell, pydiv_ok hcell, pydiv_ok hcell, pydiv_ok hcell,
    pydiv_ok hcell, pydiv_ok hcell, pydiv_ok hcell, pydiv_ok hcell,
    pydiv_ok hcell, pydiv_ok hall]
  simp only [ok_bind]
  unfold regionAvg overallAvg
  push_cast
  rfl

/-- C3: on an image at least 3 pixels wide and tall, `analyze_brightness_map`
returns exactly the ten keys `{top,middle,bottom}_{left,center,right}` and
`overall`, in the source's insertion order, with region (row, col) equal to the
sum of the grayscale pixels of the crop
`(col*cell_width, row*cell_height, col*cell_width + cell_width,
row*cell_height + cell_height)` divided by `cell_width * cell_height * 255`
(`cell_width = width // 3`, `cell_height = height // 3`), and `overall` equal
to the sum of all grayscale pixels divided by `width * height * 255`. -/
theorem analyzeBrightnessMap_ten_keys (g : GrayImage)
    (hw : 3 ≤ g.width) (hh : 3 ≤ g.height) :
    analyzeBrightnessMapExc g = Except.ok
      [("top_left", regionAvg g 0 0), ("top_center", regionAvg g 0 1),
       ("top_right", regionAvg g 0 2),
       ("middle_left", regionAvg g 1 0), ("middle_center", regionAvg g 1 1),
       ("middle_right", regionAvg g 1 2),
       ("bottom_left", regionAvg g 2 0), ("bottom_center", regionAvg g 2 1),
       ("bottom_right", regionAvg g 2 2),
       ("overall", overallAvg g)] :=
  analyzeBrightnessMap_eq_helper g hw hh

/-- A concrete 3×3 grayscale image with every pixel 60. -/
def demoGray : GrayImage := ⟨3, 3, fun _ _ => 60⟩

/-- Witness for `analyzeBrightnessMap_ten_keys` at the concrete 3×3 image. -/
theorem analyzeBrightnessMap_ten_keys_witness :
    analyzeBrightnessMapExc demoGray = Except.ok
      [("top_left", regionAvg demoGray 0 0), ("top_center", regionAvg demoGray 0 1),
       ("top_right", regionAvg demoGray 0 2),
       ("middle_left", regionAvg demoGray 1 0), ("middle_center", regionAvg demoGray 1 1),
       ("middle_right", regionAvg demoGray 1 2),
       ("bottom_left", regionAvg demoGray 2 0), ("bottom_center", regionAvg demoGray 2 1),
       ("bottom_right", regionAvg demoGray 2 2),
       ("overall", overallAvg demoGray)] :=
  analyzeBrightnessMap_ten_keys demoGray (by decide) (by decide)

/-! ### C9: domain of `analyze_brightness_map` -/

/-- A crop that stays inside the image has pixel sum at most
`width * height * 255` of the crop, provided pixels are 8-bit. -/
theorem cellSum_le (g : GrayImage)
    (hpix : ∀ x y, x < g.width → y < g.height → g.pix x y ≤ 255)
    {left upper right lower : ℕ} (hr : right ≤ g.width) (hl : lower ≤ g.height) :
    cellSum g left upper right lower ≤ (right - left) * (lower - upper) * 255 := by
  unfold cellSum
  calc ∑ y ∈ Finset.Ico upper lower, ∑ x ∈ Finset.Ico left right, g.pix x y
      ≤ ∑ y ∈ Finset.Ico upper lower, ∑ x ∈ Finset.Ico left right, 255 := by
        apply Finset.sum_le_sum
        intro y hy
        apply Finset.sum_le_sum
        intro x hx
        apply hpix
        · have := (Finset.mem_Ico.mp hx).2; omega
        · have := (Finset.mem_Ico.mp hy).2; omega
    _ = (lower - upper) * ((right - left) * 255) := by
        simp [Finset.sum_const, Nat.card_Ico, smul_eq_mul]
    _ = (right - left) * (lower - upper) * 255 := by ring

theorem regionAvg_nonneg (g : GrayImage) (row col : ℕ) : 0 ≤ regionAvg g row col := by
  unfold regionAvg
  positivity

theorem regionAvg_le_one (g : GrayImage)
    (hpix : ∀ x y, x < g.width → y < g.height → g.pix x y ≤ 255)
    (hw : 3 ≤ g.width) (hh : 3 ≤ g.height) {row col : ℕ}
    (hrow : row ≤ 2) (hcol : col ≤ 2) :
    regionAvg g row col ≤ 1 := by
  have hcw : g.width / 3 ≠ 0 := Nat.div_ne_zero_iff (by norm_num) |>.mpr hw
  have hch : g.height / 3 ≠ 0 := Nat.div_ne_zero_iff (by norm_num) |>.mpr hh
  have hxbound : col * (g.width / 3) + g.width / 3 ≤ g.width := by
    have h0 : (col + 1) * (g.width / 3) = col * (g.width / 3) + g.width / 3 := by ring
    have h1 : (col + 1) * (g.width / 3) ≤ 3 * (g.width / 3) :=
      Nat.mul_le_mul_right _ (by omega)
    have h2 : 3 * (g.width / 3) ≤ g.width := by
      have := Nat.div_mul_le_self g.width 3
      omega
    omega
  have hybound : row * (g.height / 3) + g.height / 3 ≤ g.height := by
    have h0 : (row + 1) * (g.height / 3) = row * (g.height / 3) + g.height / 3 := by
      ring
    have h1 : (row + 1) * (g.height / 3) ≤ 3 * (g.height / 3) :=
      Nat.mul_le_mul_right _ (by omega)
    have h2 : 3 * (g.height / 3) ≤ g.height := by
      have := Nat.div_mul_le_self g.height 3
      omega
    omega
  have hsum := @cellSum_le g hpix (col * (g.width / 3)) (row * (g.height / 3))
    (col * (g.width / 3) + g.width / 3) (row * (g.height / 3) + g.height / 3)
    hxbound hybound
  have hcard1 : col * (g.width / 3) + g.width / 3 - col * (g.width / 3) = g.width / 3 := by
    omega
  have hcard2 : row * (g.height / 3) + g.height / 3 - row * (g.height / 3)
      = g.height / 3 := by
    omega
  rw [hcard1, hcard2] at hsum
  unfold regionAvg
  rw [div_le_one (by positivity)]
  exact_mod_cast hsum

theorem overallAvg_nonneg (g : GrayImage) : 0 ≤ overallAvg g := by
  unfold overallAvg
  positivity

theorem overallAvg_le_one (g : GrayImage)
    (hpix : ∀ x y, x < g.width → y < g.height → g.pix x y ≤ 255)
    (hw : 1 ≤ g.width) (hh : 1 ≤ g.height) :
    overallAvg g ≤ 1 := by
  have hsum := @cellSum_le g hpix 0 0 g.width g.height
    (le_refl g.width) (le_refl g.height)
  simp only [Nat.sub_zero] at hsum
  unfold overallAvg
  rw [div_le_one]
  · exact_mod_cast hsum
  · have h1 : g.width * g.height * 255 ≠ 0 := by positivity
    positivity

/-- C9: with 8-bit pixels, `analyze_brightness_map` is safe exactly for images
at least 3 pixels wide and 3 pixels tall: then every division is by a positive
integer, the call succeeds and every value of the returned map lies in [0, 1];
when `width < 3` or `height < 3` the cell size `width // 3` or `height // 3`
is zero and the very first cell's division raises `ZeroDivisionError`. -/
theorem analyzeBrightnessMap_domain (g : GrayImage)
    (hpix : ∀ x y, x < g.width → y < g.height → g.pix x y ≤ 255) :
    (3 ≤ g.width ∧ 3 ≤ g.height →
      ∃ m, analyzeBrightnessMapExc g = Except.ok m
        ∧ ∀ p ∈ m, 0 ≤ p.2 ∧ p.2 ≤ 1)
    ∧ (g.width < 3 ∨ g.height < 3 →
      analyzeBrightnessMapExc g = Except.error "ZeroDivisionError") := by
  constructor
  · rintro ⟨hw, hh⟩
    refine ⟨_, analyzeBrightnessMap_eq_helper g hw hh, ?_⟩
    intro p hp
    simp only [List.mem_cons, List.not_mem_nil, or_false] at hp
    rcases hp with rfl | rfl | rfl | rfl | rfl | rfl | rfl | rfl | rfl | rfl
    · exact ⟨regionAvg_nonneg g 0 0,
        regionAvg_le_one g hpix hw hh (by norm_num) (by norm_num)⟩
    · exact ⟨regionAvg_nonneg g 0 1,
        regionAvg_le_one g hpix hw hh (by norm_num) (by norm_num)⟩
    · exact ⟨regionAvg_nonneg g 0 2,
        regionAvg_le_one g hpix hw hh (by norm_num) (by norm_num)⟩
    · exact ⟨regionAvg_nonneg g 1 0,
        regionAvg_le_one g hpix hw hh (by norm_num) (by norm_num)⟩
    · exact ⟨regionAvg_nonneg g 1 1,
        regionAvg_le_one g hpix hw hh (by norm_num) (by norm_num)⟩
    · exact ⟨regionAvg_nonneg g 1 2,
        regionAvg_le_one g hpix hw hh (by norm_num) (by norm_num)⟩
    · exact ⟨regionAvg_nonneg g 2 0,
        regionAvg_le_one g hpix hw hh (by norm_num) (by norm_num)⟩
    · exact ⟨regionAvg_nonneg g 2 1,
        regionAvg_le_one g hpix hw hh (by norm_num) (by norm_num)⟩
    · exact ⟨regionAvg_nonneg g 2 2,
        regionAvg_le_one g hpix hw hh (by norm_num) (by norm_num)⟩
    · exact ⟨overallAvg_nonneg g, overallAvg_le_one g hpix (by omega) (by omega)⟩
  · intro hlt
    have hz : (g.width / 3) * (g.height / 3) * 255 = 0 := by
      rcases hlt with h | h
      · have hzz : g.width / 3 = 0 := Nat.div_eq_of_lt h
        simp [hzz]
      · have hzz : g.height / 3 = 0 := Nat.div_eq_of_lt h
        simp [hzz]
    have hperr : ∀ a, pydiv a ((g.width / 3) * (g.height / 3) * 255)
        = Except.error "ZeroDivisionError" := fun a => by simp [pydiv, hz]
    unfold analyzeBrightnessMapExc cellBrightness
    dsimp only
    simp only [hperr, error_bind]

/-- Witness for `analyzeBrightnessMap_domain` at the concrete 3×3 image. -/
theorem analyzeBrightnessMap_domain_witness :
    (3 ≤ demoGray.width ∧ 3 ≤ demoGray.height →
      ∃ m, analyzeBrightnessMapExc demoGray = Except.ok m
        ∧ ∀ p ∈ m, 0 ≤ p.2 ∧ p.2 ≤ 1)
    ∧ (demoGray.width < 3 ∨ demoGray.height < 3 →
      analyzeBrightnessMapExc demoGray = Except.error "ZeroDivisionError") :=
  analyzeBrightnessMap_domain demoGray (fun _ _ _ _ => by show (60:ℕ) ≤ 255; decide)

/-! ## Dominant color extraction
Embeds `ColorSchemeGenerator.extract_dominant_colors`
(`src/ad_generator/typography/color_scheme.py` lines 50-83) and the identical
`ImageAnalyzer.extract_dominant_colors`
(`src/ad_generator/typography/image_analyzer.py` lines 59-92).  The PIL
preprocessing `image.resize((100, 100), LANCZOS)` and `convert('RGB')` is
library code; the model starts from `pixels = list(img_small.getdata())`, the
pixel list of the resized RGB image. -/

/-- An RGB pixel. -/
abbrev Color := ℕ × ℕ × ℕ

/-- One step of the `for pixel in pixels` counting loop: increment this
color's entry, or append it with count 1 (Python dicts keep insertion order,
so a new color goes to the end). -/
def bump : List (Color × ℕ) → Color → List (Color × ℕ)
  | [], c => [(c, 1)]
  | (d, n) :: rest, c => if d = c then (d, n + 1) :: rest else (d, n) :: bump rest c

/-- The `color_counts` dictionary: occurrence counts keyed by color, in
first-occurrence order. -/
def colorCounts (pixels : List Color) : List (Color × ℕ) :=
  pixels.foldl bump []

/-- The comparison realised by
`sorted(color_counts.items(), key=lambda x: x[1], reverse=True)`:
by count, descending.  CPython's sort is stable; `List.insertionSort` with
this relation is stable in the same sense (ties keep first-occurrence order). -/
def countGE (a b : Color × ℕ) : Prop := b.2 ≤ a.2

instance : DecidableRel countGE := fun a b => by unfold countGE; infer_instance

instance : IsTotal (Color × ℕ) countGE := ⟨fun a b => le_total b.2 a.2⟩

instance : IsTrans (Color × ℕ) countGE := ⟨fun _ _ _ h1 h2 => le_trans h2 h1⟩

/-- `extract_dominant_colors` from the pixel list on: count occurrences, sort
by frequency descending, return the colors of the first `num_colors` items. -/
def extractDominantColors (pixels : List Color) (numColors : ℕ) : List Color :=
  ((List.insertionSort countGE (colorCounts pixels)).take numColors).map Prod.fst

/-- The count recorded for a color in the counts dictionary (0 if absent). -/
def getCount : List (Color × ℕ) → Color → ℕ
  | [], _ => 0
  | (d, n) :: rest, c => if d = c then n else getCount rest c

theorem getCount_bump_self (l : List (Color × ℕ)) (c : Color) :
    getCount (bump l c) c = getCount l c + 1 := by
  induction l with
  | nil => simp [bump, getCount]
  | cons hd rest ih =>
    obtain ⟨d, n⟩ := hd
    by_cases hdc : d = c
    · simp [bump, getCount, hdc]
    · simp [bump, getCount, hdc, ih]

theorem getCount_bump_ne (l : List (Color × ℕ)) (c d : Color) (hne : d ≠ c) :
    getCount (bump l c) d = getCount l d := by
  induction l with
  | nil => simp [bump, getCount, Ne.symm hne]
  | cons hd rest ih =>
    obtain ⟨e, n⟩ := hd
    by_cases hec : e = c
    · subst hec
      simp [bump, getCount, Ne.symm hne]
    · by_cases hed : e = d
      · subst hed
        simp [bump, getCount, hec]
      · simp [bump, getCount, hec, hed, ih]

theorem mem_keys_bump (l : List (Color × ℕ)) (c d : Color) :
    (d ∈ (bump l c).map Prod.fst) ↔ (d ∈ l.map Prod.fst ∨ d = c) := by
  induction l with
  | nil => simp [bump]
  | cons hd rest ih =>
    obtain ⟨e, n⟩ := hd
    by_cases hec : e = c
    · subst hec
      simp [bump]
      tauto
    · simp [bump, hec, ih]
      tauto

theorem nodup_keys_bump (l : List (Color × ℕ)) (c : Color)
    (hnd : (l.map Prod.fst).Nodup) : ((bump l c).map Prod.fst).Nodup := by
  induction l with
  | nil => simp [bump]
  | cons hd rest ih =>
    obtain ⟨e, n⟩ := hd
    simp only [List.map_cons, List.nodup_cons] at hnd
    by_cases hec : e = c
    · subst hec
      have hb : bump ((e, n) :: rest) e = (e, n + 1) :: rest := by simp [bump]
      rw [hb]
      simp only [List.map_cons, List.nodup_cons]
      exact hnd
    · simp only [bump, if_neg hec, List.map_cons, List.nodup_cons]
      refine ⟨?_, ih hnd.2⟩
      rw [mem_keys_bump]
      rintro (h | h)
      · exact hnd.1 h
      · exact hec h

theorem getCount_foldl (pixels : List Color) :
    ∀ acc : List (Color × ℕ), ∀ c : Color,
      getCount (pixels.foldl bump acc) c = getCount acc c + pixels.count c := by
  induction pixels with
  | nil => intro acc c; simp
  | cons p px ih =>
    intro acc c
    rw [List.foldl_cons, ih (bump acc p) c, List.count_cons]
    by_cases hpc : p = c
    · subst hpc
      simp [getCount_bump_self]
      omega
    · have hbeq : ¬(c == p) = true := by
        intro hcon
        exact hpc (beq_iff_eq.mp hcon).symm
      simp [getCount_bump_ne acc p c (Ne.symm hpc), hbeq]
      exact hpc

theorem mem_keys_foldl (pixels : List Color) :
    ∀ acc : List (Color × ℕ), ∀ c : Color,
      (c ∈ (pixels.foldl bump acc).map Prod.fst)
        ↔ (c ∈ acc.map Prod.fst ∨ c ∈ pixels) := by
  induction pixels with
  | nil => intro acc c; simp
  | cons p px ih =>
    intro acc c
    rw [List.foldl_cons, ih (bump acc p) c, mem_keys_bump]
    simp [List.mem_cons]
    tauto

theorem nodup_keys_foldl (pixels : List Color) :
    ∀ acc : List (Color × ℕ), (acc.map Prod.fst).Nodup →
      ((pixels.foldl bump acc).map Prod.fst).Nodup := by
  induction pixels with
  | nil => intro acc h; simpa using h
  | cons p px ih =>
    intro acc h
    rw [List.foldl_cons]
    exact ih (bump acc p) (nodup_keys_bump acc p h)

theorem colorCounts_nodup (pixels : List Color) :
    ((colorCounts pixels).map Prod.fst).Nodup :=
  nodup_keys_foldl pixels [] (by simp)

theorem colorCounts_getCount (pixels : List Color) (c : Color) :
    getCount (colorCounts pixels) c = pixels.count c := by
  have := getCount_foldl pixels [] c
  simpa [getCount] using this

theorem colorCounts_mem_keys (pixels : List Color) (c : Color) :
    (c ∈ (colorCounts pixels).map Prod.fst) ↔ c ∈ pixels := by
  have := mem_keys_foldl pixels [] c
  simpa using this

theorem getCount_of_mem_nodup {l : List (Color × ℕ)}
    (hnd : (l.map Prod.fst).Nodup) {c : Color} {n : ℕ} (h : (c, n) ∈ l) :
    getCount l c = n := by
  induction l with
  | nil => cases h
  | cons hd rest ih =>
    obtain ⟨e, m⟩ := hd
    simp only [List.map_cons, List.nodup_cons] at hnd
    rcases List.mem_cons.mp h with h1 | h1
    · rw [Prod.mk.injEq] at h1
      obtain ⟨he, hm⟩ := h1
      simp [getCount, he, hm]
    · have hec : e ≠ c := by
        intro hcon
        subst hcon
        exact hnd.1 (List.mem_map_of_mem Prod.fst h1)
      simp [getCount, hec, ih hnd.2 h1]

/-- Entries of the counts dictionary record the exact occurrence count. -/
theorem colorCounts_entry (pixels : List Color) {c : Color} {n : ℕ}
    (h : (c, n) ∈ colorCounts pixels) : n = pixels.count c := by
  rw [← colorCounts_getCount pixels c,
    getCount_of_mem_nodup (colorCounts_nodup pixels) h]

/-- C5: `extract_dominant_colors` returns at most `num_colors` RGB triples,
ordered by non-increasing frequency of occurrence among the pixels of the
image resized to 100x100 RGB (whose pixel data is the `pixels` list); every
returned color occurs in the resized image, and at least as often as every
distinct color not returned. -/
theorem extractDominantColors_spec (pixels : List Color) (numColors : ℕ) :
    (extractDominantColors pixels numColors).length ≤ numColors
    ∧ (extractDominantColors pixels numColors).Pairwise
        (fun c d => pixels.count d ≤ pixels.count c)
    ∧ (∀ c ∈ extractDominantColors pixels numColors, c ∈ pixels)
    ∧ (∀ c ∈ extractDominantColors pixels numColors, ∀ d : Color, d ∈ pixels →
        d ∉ extractDominantColors pixels numColors →
        pixels.count d ≤ pixels.count c) := by
  have hsort : (List.insertionSort countGE (colorCounts pixels)).Sorted countGE :=
    List.sorted_insertionSort countGE (colorCounts pixels)
  have hperm : (List.insertionSort countGE (colorCounts pixels)).Perm
      (colorCounts pixels) :=
    List.perm_insertionSort countGE (colorCounts pixels)
  have hmemcounts : ∀ p : Color × ℕ,
      p ∈ List.insertionSort countGE (colorCounts pixels) →
      p.2 = pixels.count p.1 := by
    intro p hp
    have hpc : p ∈ colorCounts pixels := hperm.mem_iff.mp hp
    exact colorCounts_entry pixels hpc
  have hmemtake : ∀ c, c ∈ extractDominantColors pixels numColors →
      ∃ p : Color × ℕ,
        p ∈ (List.insertionSort countGE (colorCounts pixels)).take numColors
          ∧ p.1 = c := by
    intro c hc
    obtain ⟨p, hp, hpe⟩ := List.mem_map.mp hc
    exact ⟨p, hp, hpe⟩
  refine ⟨?_, ?_, ?_, ?_⟩
  · rw [extractDominantColors, List.length_map, List.length_take]
    exact min_le_left _ _
  · rw [extractDominantColors, List.pairwise_map]
    have htake : ((List.insertionSort countGE (colorCounts pixels)).take
        numColors).Pairwise countGE :=
      hsort.sublist (List.take_sublist _ _)
    refine List.Pairwise.imp_of_mem ?_ htake
    intro p q hp hq hpq
    have h1 : p.2 = pixels.count p.1 :=
      hmemcounts p (List.mem_of_mem_take hp)
    have h2 : q.2 = pixels.count q.1 :=
      hmemcounts q (List.mem_of_mem_take hq)
    unfold countGE at hpq
    omega
  · intro c hc
    obtain ⟨p, hp, hpe⟩ := hmemtake c hc
    have hpc : p ∈ colorCounts pixels :=
      hperm.mem_iff.mp (List.mem_of_mem_take hp)
    rw [← colorCounts_mem_keys pixels c, ← hpe]
    exact List.mem_map_of_mem Prod.fst hpc
  · intro c hc d hd hdnot
    obtain ⟨p, hp, hpe⟩ := hmemtake c hc
    have hdk : d ∈ (colorCounts pixels).map Prod.fst :=
      (colorCounts_mem_keys pixels d).mpr hd
    obtain ⟨q, hq, hqe⟩ := List.mem_map.mp hdk
    have hqs : q ∈ List.insertionSort countGE (colorCounts pixels) :=
      hperm.mem_iff.mpr hq
    rw [← List.take_append_drop numColors
      (List.insertionSort countGE (colorCounts pixels))] at hqs
    rcases List.mem_append.mp hqs with hq1 | hq1
    · exfalso
      apply hdnot
      rw [extractDominantColors, ← hqe]
      exact List.mem_map_of_mem Prod.fst hq1
    · have hrel : countGE p q := hsort.rel_of_mem_take_of_mem_drop hp hq1
      have h1 : p.2 = pixels.count p.1 := hmemcounts p (List.mem_of_mem_take hp)
      have h2 : q.2 = pixels.count q.1 :=
        hmemcounts q (hperm.mem_iff.mpr hq)
      unfold countGE at hrel
      rw [hpe] at h1
      rw [hqe] at h2
      omega

/-- Concrete pixel list for the witness: color (9,9,9) occurs twice,
(1,2,3) and (0,0,0) once each. -/
def demoPixels : List Color := [(9, 9, 9), (1, 2, 3), (9, 9, 9), (0, 0, 0)]

/-- Witness for `extractDominantColors_spec` at a concrete pixel list. -/
theorem extractDominantColors_spec_witness :
    (extractDominantColors demoPixels 2).length ≤ 2
    ∧ (extractDominantColors demoPixels 2).Pairwise
        (fun c d => demoPixels.count d ≤ demoPixels.count c)
    ∧ (∀ c ∈ extractDominantColors demoPixels 2, c ∈ demoPixels)
    ∧ (∀ c ∈ extractDominantColors demoPixels 2, ∀ d : Color, d ∈ demoPixels →
        d ∉ extractDominantColors demoPixels 2 →
        demoPixels.count d ≤ demoPixels.count c) :=
  extractDominantColors_spec demoPixels 2

/-! ## Contrast test and color scheme
Embeds `ColorSchemeGenerator._has_sufficient_contrast`
(`src/ad_generator/typography/color_scheme.py` lines 265-288) and
`generate_color_scheme` (lines 85-214) on the call of the claim
(`scheme_type=None`, `industry=None`). -/

/-- The simplified relative luminance
`(0.299 * r + 0.587 * g + 0.114 * b) / 255`, exact over `ℚ`. -/
def luminance (c : Color) : ℚ :=
  ((299 : ℚ) / 1000 * c.1 + (587 : ℚ) / 1000 * c.2.1 + (114 : ℚ) / 1000 * c.2.2) / 255

/-- `ColorSchemeGenerator._has_sufficient_contrast`: contrast ratio
`(l_big + 0.05) / (l_small + 0.05)` with the larger luminance on top, compared
against the WCAG threshold 4.5. -/
def hasSufficientContrast (c1 c2 : Color) : Bool :=
  let l1 := luminance c1
  let l2 := luminance c2
  let r := if l1 > l2 then (l1 + 5 / 100) / (l2 + 5 / 100)
    else (l2 + 5 / 100) / (l1 + 5 / 100)
  decide (r ≥ (45 : ℚ) / 10)

/-- C6: `_has_sufficient_contrast(c1, c2)` returns True iff
`(l_max + 0.05) / (l_min + 0.05) >= 4.5` for the two luminances, and the test
is symmetric in its two arguments. -/
theorem hasSufficientContrast_correct (c1 c2 : Color) :
    (hasSufficientContrast c1 c2 = true ↔
      (max (luminance c1) (luminance c2) + 5 / 100)
        / (min (luminance c1) (luminance c2) + 5 / 100) ≥ (45 : ℚ) / 10)
    ∧ hasSufficientContrast c1 c2 = hasSufficientContrast c2 c1 := by
  constructor
  · unfold hasSufficientContrast
    dsimp only
    rcases le_or_lt (luminance c1) (luminance c2) with h | h
    · rw [if_neg (not_lt.mpr h), max_eq_right h, min_eq_left h]
      simp
    · rw [if_pos h, max_eq_left h.le, min_eq_right h.le]
      simp
  · unfold hasSufficientContrast
    dsimp only
    rcases lt_trichotomy (luminance c1) (luminance c2) with h | h | h
    · rw [if_neg (not_lt.mpr h.le), if_pos h]
    · rw [if_neg (not_lt.mpr h.le), if_neg (not_lt.mpr h.ge), h]
    · rw [if_pos h, if_neg (not_lt.mpr h.le)]

/-- An ad image as the color-scheme generator consumes it: the grayscale view
used by `_calculate_image_brightness` and the pixel data of the
100x100 RGB resize used by `extract_dominant_colors`. -/
structure AdImage where
  gray : GrayImage
  small : List Color

/-- The dictionary `generate_color_scheme` returns. -/
structure ColorScheme where
  textColor : ℕ × ℕ × ℕ × ℕ
  accentColor : ℕ × ℕ × ℕ × ℕ
  dominantColors : Option (List Color)
  brightness : ℚ
  schemeType : String
  industry : Option String
deriving DecidableEq, Repr

/-- The first three components of an RGBA tuple (`text_color[:3]`). -/
def rgbOf (c : ℕ × ℕ × ℕ × ℕ) : Color := (c.1, c.2.1, c.2.2.1)

/-- The `for color in dominant_colors: ... else: accent = default` loop of the
no-scheme-type, no-industry branch (lines 193-204): the first dominant color
with sufficient contrast against the text color becomes the accent (alpha
230); if none qualifies — in particular if the list is empty, which the source
reaches through its explicit `else` — the default professional blue is used. -/
def contrastAccentLoop : List Color → Color → ℕ × ℕ × ℕ × ℕ
  | [], _ => (41, 128, 185, 230)
  | c :: rest, t =>
      if hasSufficientContrast c t then (c.1, c.2.1, c.2.2, 230)
      else contrastAccentLoop rest t

/-- `ColorSchemeGenerator.generate_color_scheme(image)` with `scheme_type=None`
and `industry=None` (the call of the claim): extract dominant colors, compute
the brightness, choose near-black text on bright images (`brightness > 0.5`)
and white text otherwise, pick the accent through the contrast loop, and
return the scheme dictionary (`dominant_colors[:3] if dominant_colors else
None`, `scheme_type or "auto-generated"`). -/
def generateColorSchemeDefault (img : AdImage) : Except String ColorScheme := do
  let dominantColors := extractDominantColors img.small 5
  let brightness ← calculateImageBrightness img.gray
  let textColor : ℕ × ℕ × ℕ × ℕ :=
    if brightness > 1 / 2 then (30, 30, 30, 255) else (255, 255, 255, 255)
  let accentColor := contrastAccentLoop dominantColors (rgbOf textColor)
  return { textColor := textColor,
           accentColor := accentColor,
           dominantColors :=
             if dominantColors.isEmpty then none else some (dominantColors.take 3),
           brightness := brightness,
           schemeType := "auto-generated",
           industry := none }

/-- C4: called with no scheme_type and no industry on an image with at least
one pixel, `generate_color_scheme` returns a scheme whose text color is
near-black (30, 30, 30, 255) exactly when the average grayscale brightness is
strictly greater than 0.5, and white (255, 255, 255, 255) otherwise; on a
zero-area image the brightness division raises instead. -/
theorem generateColorScheme_text_color (img : AdImage) :
    (0 < img.gray.width * img.gray.height →
      ∃ s, generateColorSchemeDefault img = Except.ok s
        ∧ s.brightness = overallAvg img.gray
        ∧ (overallAvg img.gray > 1 / 2 → s.textColor = (30, 30, 30, 255))
        ∧ (¬(overallAvg img.gray > 1 / 2) → s.textColor = (255, 255, 255, 255)))
    ∧ (img.gray.width * img.gray.height = 0 →
      generateColorSchemeDefault img = Except.error "ZeroDivisionError") := by
  constructor
  · intro hpos
    have hne : img.gray.width * img.gray.height * 255 ≠ 0 := by positivity
    have hbr : calculateImageBrightness img.gray = Except.ok (overallAvg img.gray) := by
      unfold calculateImageBrightness overallAvg
      rw [pydiv_ok hne]
    have hmain : generateColorSchemeDefault img = Except.ok
        { textColor := if overallAvg img.gray > 1 / 2 then (30, 30, 30, 255)
            else (255, 255, 255, 255),
          accentColor := contrastAccentLoop (extractDominantColors img.small 5)
            (rgbOf (if overallAvg img.gray > 1 / 2 then (30, 30, 30, 255)
              else (255, 255, 255, 255))),
          dominantColors := if (extractDominantColors img.small 5).isEmpty then none
            else some ((extractDominantColors img.small 5).take 3),
          brightness := overallAvg img.gray,
          schemeType := "auto-generated",
          industry := none } := by
      unfold generateColorSchemeDefault
      rw [hbr, ok_bind]
      rfl
    refine ⟨_, hmain, rfl, ?_, ?_⟩
    · intro hgt
      simp only [if_pos hgt]
    · intro hle
      simp only [if_neg hle]
  · intro hz
    have hz255 : img.gray.width * img.gray.height * 255 = 0 := by
      rw [hz, Nat.zero_mul]
    unfold generateColorSchemeDefault calculateImageBrightness
    rw [show pydiv (cellSum img.gray 0 0 img.gray.width img.gray.height)
        (img.gray.width * img.gray.height * 255) = Except.error "ZeroDivisionError" from
      by simp [pydiv, hz255]]
    rw [error_bind]

/-- Witness for `generateColorScheme_text_color`: the demo 3×3 image (all
pixels 60, brightness 60/255 ≤ 1/2) paired with the demo pixel list. -/
theorem generateColorScheme_text_color_witness :
    (0 < (AdImage.mk demoGray demoPixels).gray.width
          * (AdImage.mk demoGray demoPixels).gray.height →
      ∃ s, generateColorSchemeDefault (AdImage.mk demoGray demoPixels) = Except.ok s
        ∧ s.brightness = overallAvg (AdImage.mk demoGray demoPixels).gray
        ∧ (overallAvg (AdImage.mk demoGray demoPixels).gray > 1 / 2 →
            s.textColor = (30, 30, 30, 255))
        ∧ (¬(overallAvg (AdImage.mk demoGray demoPixels).gray > 1 / 2) →
            s.textColor = (255, 255, 255, 255)))
    ∧ ((AdImage.mk demoGray demoPixels).gray.width
          * (AdImage.mk demoGray demoPixels).gray.height = 0 →
      generateColorSchemeDefault (AdImage.mk demoGray demoPixels)
        = Except.error "ZeroDivisionError") :=
  generateColorScheme_text_color (AdImage.mk demoGray demoPixels)

/-! ### C7: determinism / purity
The embedded analysis functions are pure Lean functions, so two runs on the
same input are definitionally equal; the substantial content is that their
output depends only on the pixel data the image carries (the in-bounds
grayscale values and the resized RGB pixel list) and the arguments — there is
no other input channel. -/

theorem cellSum_congr (g1 g2 : GrayImage) {l u r low : ℕ}
    (hpix : ∀ x y, x < r → y < low → g1.pix x y = g2.pix x y) :
    cellSum g1 l u r low = cellSum g2 l u r low := by
  unfold cellSum
  apply Finset.sum_congr rfl
  intro y hy
  apply Finset.sum_congr rfl
  intro x hx
  exact hpix x y (Finset.mem_Ico.mp hx).2 (Finset.mem_Ico.mp hy).2

theorem cellBound (w : ℕ) {col : ℕ} (hcol : col ≤ 2) :
    col * (w / 3) + w / 3 ≤ w := by
  have h0 : (col + 1) * (w / 3) = col * (w / 3) + w / 3 := by ring
  have h1 : (col + 1) * (w / 3) ≤ 3 * (w / 3) := Nat.mul_le_mul_right _ (by omega)
  have h2 := Nat.div_mul_le_self w 3
  omega

/-- C7: determinism and purity of the analysis functions — two images agreeing
in size and on every in-bounds grayscale pixel, together with one resized
pixel list, produce identical brightness maps, identical dominant colors (the
two occurrences written out are two runs of the same call), and identical
color schemes; nothing besides pixel data and arguments influences the
outputs. -/
theorem analysis_deterministic (g1 g2 : GrayImage) (s : List Color) (numColors : ℕ)
    (hw : g1.width = g2.width) (hh : g1.height = g2.height)
    (hpix : ∀ x y, x < g1.width → y < g1.height → g1.pix x y = g2.pix x y) :
    analyzeBrightnessMapExc g1 = analyzeBrightnessMapExc g2
    ∧ extractDominantColors s numColors = extractDominantColors s numColors
    ∧ generateColorSchemeDefault (AdImage.mk g1 s)
        = generateColorSchemeDefault (AdImage.mk g2 s) := by
  have hb : ∀ l u r low : ℕ, r ≤ g1.width → low ≤ g1.height →
      cellSum g1 l u r low = cellSum g2 l u r low := by
    intro l u r low hr hl
    exact cellSum_congr g1 g2
      (fun x y hx hy => hpix x y (lt_of_lt_of_le hx hr) (lt_of_lt_of_le hy hl))
  have hcb : ∀ row col : ℕ, row ≤ 2 → col ≤ 2 →
      cellSum g1 (col * (g1.width / 3)) (row * (g1.height / 3))
          (col * (g1.width / 3) + g1.width / 3)
          (row * (g1.height / 3) + g1.height / 3)
        = cellSum g2 (col * (g1.width / 3)) (row * (g1.height / 3))
          (col * (g1.width / 3) + g1.width / 3)
          (row * (g1.height / 3) + g1.height / 3) := by
    intro row col hrow hcol
    exact hb _ _ _ _ (cellBound g1.width hcol) (cellBound g1.height hrow)
  refine ⟨?_, rfl, ?_⟩
  · unfold analyzeBrightnessMapExc cellBrightness
    dsimp only
    rw [← hw, ← hh]
    rw [hcb 0 0 (by norm_num) (by norm_num), hcb 0 1 (by norm_num) (by norm_num),
      hcb 0 2 (by norm_num) (by norm_num), hcb 1 0 (by norm_num) (by norm_num),
      hcb 1 1 (by norm_num) (by norm_num), hcb 1 2 (by norm_num) (by norm_num),
      hcb 2 0 (by norm_num) (by norm_num), hcb 2 1 (by norm_num) (by norm_num),
      hcb 2 2 (by norm_num) (by norm_num),
      hb 0 0 g1.width g1.height (le_refl _) (le_refl _)]
  · have hbright : calculateImageBrightness g1 = calculateImageBrightness g2 := by
      unfold calculateImageBrightness
      rw [← hw, ← hh, hb 0 0 g1.width g1.height (le_refl _) (le_refl _)]
    unfold generateColorSchemeDefault
    dsimp only
    rw [hbright]

/-- A 3×3 image equal to `demoGray` in bounds but different outside: the
analysis outputs agree nevertheless. -/
def demoGrayPadded : GrayImage :=
  ⟨3, 3, fun x y => if x < 3 ∧ y < 3 then 60 else 999⟩

/-- Witness for `analysis_deterministic`: `demoGray` versus `demoGrayPadded`. -/
theorem analysis_deterministic_witness :
    analyzeBrightnessMapExc demoGray = analyzeBrightnessMapExc demoGrayPadded
    ∧ extractDominantColors demoPixels 5 = extractDominantColors demoPixels 5
    ∧ generateColorSchemeDefault (AdImage.mk demoGray demoPixels)
        = generateColorSchemeDefault (AdImage.mk demoGrayPadded demoPixels) :=
  analysis_deterministic demoGray demoGrayPadded demoPixels 5 rfl rfl
    (fun x y hx hy => by
      show (60 : ℕ) = if x < 3 ∧ y < 3 then 60 else 999
      rw [if_pos ⟨hx, hy⟩])

/-! ## Placement helpers and their blanket try/except
Embeds `TextPlacementEngine._find_subject_position` (text_placement.py lines
461-508), `_analyze_image_brightness` (lines 510-555) and their caller
`_calculate_dynamic_placement` (lines 360-459). -/

/-- The per-element placement data the dynamic-placement code reads and
writes (`x_rel`, `y_rel`, `alignment`). -/
structure ElemTemplate where
  xRel : ℚ
  yRel : ℚ
  alignment : String
deriving DecidableEq, Repr

/-- The semi-transparent background block the very-dark branch installs. -/
structure BackgroundSpec where
  enabled : Bool
  color : ℕ × ℕ × ℕ × ℕ
  padding : ℚ
  yStart : ℚ
  yEnd : ℚ
deriving DecidableEq, Repr

/-- A layout template as `_calculate_dynamic_placement` manipulates it: the
five text elements plus the optional background entry. -/
structure Template where
  headline : ElemTemplate
  subheadline : ElemTemplate
  body : ElemTemplate
  cta : ElemTemplate
  brand : ElemTemplate
  background : Option BackgroundSpec
deriving DecidableEq, Repr

/-- `_analyze_image_brightness`: the body is the same computation as
`analyze_brightness_map`; the blanket `try/except` turns any exception (for
example the `ZeroDivisionError` on images thinner than 3 pixels) into a
logged warning and `None`. -/
def analyzeImageBrightness (g : GrayImage) : Option (List (String × ℚ)) :=
  match analyzeBrightnessMapExc g with
  | .ok m => some m
  | .error _ => none

/-- `_find_subject_position`: the body (grayscale conversion, `FIND_EDGES`,
`np.percentile`, `np.where`, `np.mean`) is numpy/PIL library code, abstracted
here as an arbitrary computation that either produces the normalized subject
center or raises; the blanket `try/except` turns any exception into a logged
warning and `None`. -/
def findSubjectPosition (body : Except String (ℚ × ℚ)) : Option (ℚ × ℚ) :=
  match body with
  | .ok v => some v
  | .error _ => none

/-- Python `min(items, key=k)`: the first element with minimal key
(`none` for an empty list, where Python would raise `ValueError`; the
brightness maps fed to it always have ten entries). -/
def minByKey (k : String × ℚ → ℚ) : List (String × ℚ) → Option (String × ℚ)
  | [] => none
  | x :: xs => some (xs.foldl (fun best p => if k p < k best then p else best) x)

/-- The `key=lambda x: x[1] if x[0] != 'overall' else 1.0` of line 420. -/
def darkestKey (p : String × ℚ) : ℚ :=
  if p.1 ≠ "overall" then p.2 else 1

/-- `y_map.get(vert, 0.5)` with `y_map = {'top': 0.2, 'middle': 0.5,
'bottom': 0.8}`. -/
def yMapGet (vert : String) : ℚ :=
  if vert = "top" then 2 / 10
  else if vert = "middle" then 5 / 10
  else if vert = "bottom" then 8 / 10
  else 5 / 10

/-- `x_map.get(horiz, 0.5)` with `x_map = {'left': 0.15, 'center': 0.5,
'right': 0.85}`. -/
def xMapGet (horiz : String) : ℚ :=
  if horiz = "left" then 15 / 100
  else if horiz = "center" then 5 / 10
  else if horiz = "right" then 85 / 100
  else 5 / 10

/-- The subject-position adjustment (lines 383-411): vertical placement away
from the subject, then horizontal placement away from the subject with the
matching alignment. -/
def adjustForSubject (pos : ℚ × ℚ) (t : Template) : Template :=
  let tv :=
    if pos.2 < 1 / 2 then
      { t with headline := { t.headline with yRel := 7 / 10 },
               subheadline := { t.subheadline with yRel := 77 / 100 },
               body := { t.body with yRel := 84 / 100 },
               cta := { t.cta with yRel := 9 / 10 },
               brand := { t.brand with yRel := 6 / 10 } }
    else
      { t with headline := { t.headline with yRel := 2 / 10 },
               subheadline := { t.subheadline with yRel := 27 / 100 },
               body := { t.body with yRel := 34 / 100 },
               cta := { t.cta with yRel := 45 / 100 },
               brand := { t.brand with yRel := 1 / 10 } }
  if pos.1 < 1 / 2 then
    { tv with headline := { tv.headline with xRel := 85 / 100, alignment := "right" },
              subheadline := { tv.subheadline with xRel := 85 / 100, alignment := "right" },
              body := { tv.body with xRel := 85 / 100, alignment := "right" },
              cta := { tv.cta with xRel := 85 / 100, alignment := "right" },
              brand := { tv.brand with xRel := 85 / 100, alignment := "right" } }
  else
    { tv with headline := { tv.headline with xRel := 15 / 100, alignment := "left" },
              subheadline := { tv.subheadline with xRel := 15 / 100, alignment := "left" },
              body := { tv.body with xRel := 15 / 100, alignment := "left" },
              cta := { tv.cta with xRel := 15 / 100, alignment := "left" },
              brand := { tv.brand with xRel := 15 / 100, alignment := "left" } }

/-- The very-bright adjustment (lines 418-435): move the four text elements to
the darkest region of the 3×3 grid.  The `vert, horiz = region_name.split('_')`
unpacking is modelled on the two-part names the brightness map produces; the
`if '_' in region_name` guard is the source's. -/
def adjustForBrightRegion (m : List (String × ℚ)) (t : Template) : Template :=
  match minByKey darkestKey m with
  | none => t
  | some darkest =>
      let regionName := darkest.1
      if regionName.contains '_' then
        let parts := regionName.splitOn "_"
        let vert := parts.getD 0 ""
        let horiz := parts.getD 1 ""
        { t with headline := { yRel := yMapGet vert, xRel := xMapGet horiz,
                               alignment := horiz },
                 subheadline := { yRel := yMapGet vert, xRel := xMapGet horiz,
                                  alignment := horiz },
                 body := { yRel := yMapGet vert, xRel := xMapGet horiz,
                           alignment := horiz },
                 cta := { yRel := yMapGet vert, xRel := xMapGet horiz,
                          alignment := horiz } }
      else t

/-- The very-dark adjustment (lines 438-457): install a semi-transparent
background block and center the four text elements inside it. -/
def adjustForDarkImage (t : Template) : Template :=
  { t with background := some ⟨true, (0, 0, 0, 180), 5 / 100, 6 / 10, 95 / 100⟩,
           headline := { yRel := 68 / 100, xRel := 5 / 10, alignment := "center" },
           subheadline := { yRel := 75 / 100, xRel := 5 / 10, alignment := "center" },
           body := { yRel := 82 / 100, xRel := 5 / 10, alignment := "center" },
           cta := { yRel := 89 / 100, xRel := 5 / 10, alignment := "center" } }

/-- `_calculate_dynamic_placement` on the two analysis results: apply the
subject adjustment when a subject was found, then the brightness adjustment
when a brightness map was produced (`overall = brightness_map.get('overall',
0.5)`; `> 0.8` bright branch, `< 0.2` dark branch). -/
def calcDynamicPlacementCore (sp : Option (ℚ × ℚ))
    (bm : Option (List (String × ℚ))) (t : Template) : Template :=
  let t1 := match sp with
    | none => t
    | some pos => adjustForSubject pos t
  match bm with
  | none => t1
  | some m =>
      let overall := (List.lookup "overall" m).getD (1 / 2)
      if overall > 8 / 10 then adjustForBrightRegion m t1
      else if overall < 2 / 10 then adjustForDarkImage t1
      else t1

/-- `_calculate_dynamic_placement(image, template, ...)`: the analysis results
come from the two try/except helpers. -/
def calcDynamicPlacement (g : GrayImage) (subjectBody : Except String (ℚ × ℚ))
    (t : Template) : Template :=
  calcDynamicPlacementCore (findSubjectPosition subjectBody)
    (analyzeImageBrightness g) t

/-- C8: the placement helpers never propagate an exception: whatever the body
does, `_analyze_image_brightness` and `_find_subject_position` return `some`
of the computed value on success and `None` on any internal failure, and when
both return `None` their caller `_calculate_dynamic_placement` skips every
analysis-dependent adjustment and returns the template unchanged. -/
theorem placementHelpers_never_raise (g : GrayImage)
    (body : Except String (ℚ × ℚ)) (t : Template) :
    (∀ e, analyzeBrightnessMapExc g = Except.error e →
      analyzeImageBrightness g = none)
    ∧ (∀ m, analyzeBrightnessMapExc g = Except.ok m →
      analyzeImageBrightness g = some m)
    ∧ (∀ e, body = Except.error e → findSubjectPosition body = none)
    ∧ (∀ v, body = Except.ok v → findSubjectPosition body = some v)
    ∧ (findSubjectPosition body = none → analyzeImageBrightness g = none →
        calcDynamicPlacement g body t = t) := by
  refine ⟨?_, ?_, ?_, ?_, ?_⟩
  · intro e he
    unfold analyzeImageBrightness
    rw [he]
  · intro m hm
    unfold analyzeImageBrightness
    rw [hm]
  · intro e he
    unfold findSubjectPosition
    rw [he]
  · intro v hv
    unfold findSubjectPosition
    rw [hv]
  · intro h1 h2
    unfold calcDynamicPlacement calcDynamicPlacementCore
    rw [h1, h2]

/-- A concrete template for the witness. -/
def demoTemplate : Template :=
  { headline := ⟨5 / 10, 3 / 10, "center"⟩,
    subheadline := ⟨5 / 10, 4 / 10, "center"⟩,
    body := ⟨5 / 10, 5 / 10, "center"⟩,
    cta := ⟨5 / 10, 7 / 10, "center"⟩,
    brand := ⟨5 / 10, 1 / 10, "center"⟩,
    background := none }

/-- A 2×2 image: too small for the 3×3 grid, so the brightness body raises
`ZeroDivisionError` and the helper returns `None`. -/
def demoTiny : GrayImage := ⟨2, 2, fun _ _ => 10⟩

/-- Witness for `placementHelpers_never_raise` at a failing subject body and
the 2×2 image: both helpers return `None` and the template passes through
unchanged. -/
theorem placementHelpers_never_raise_witness :
    (∀ e, analyzeBrightnessMapExc demoTiny = Except.error e →
      analyzeImageBrightness demoTiny = none)
    ∧ (∀ m, analyzeBrightnessMapExc demoTiny = Except.ok m →
      analyzeImageBrightness demoTiny = some m)
    ∧ (∀ e, (Except.error "edge detection failed" : Except String (ℚ × ℚ))
        = Except.error e →
      findSubjectPosition (Except.error "edge detection failed") = none)
    ∧ (∀ v, (Except.error "edge detection failed" : Except String (ℚ × ℚ))
        = Except.ok v →
      findSubjectPosition (Except.error "edge detection failed") = some v)
    ∧ (findSubjectPosition (Except.error "edge detection failed") = none →
        analyzeImageBrightness demoTiny = none →
        calcDynamicPlacement demoTiny (Except.error "edge detection failed")
          demoTemplate = demoTemplate) :=
  placementHelpers_never_raise demoTiny (Except.error "edge detection failed")
    demoTemplate

/-! ## Text effects engine state
Embeds the `default_effects_params` dictionary of `TextEffectsEngine.__init__`
(`src/ad_generator/typography/text_effects.py` lines 19-45) and the state
effect of `_apply_shadow_effect` (lines 1051-1104) and `apply_text_effect`
(lines 47-158).  Only the shadow path touches `default_effects_params`
(line 1061 is its single use in the file), so the engine state is threaded
explicitly and the drawing side effects are abstracted away. -/

structure ShadowParams where
  offset : ℤ
  blurRadius : ℤ
  color : ℕ × ℕ × ℕ × ℕ
deriving DecidableEq, Repr

structure GlowParams where
  radius : ℤ
  intensity : ℚ
  color : ℕ × ℕ × ℕ × ℕ
deriving DecidableEq, Repr

structure GradientParams where
  direction : String
  startOpacity : ℚ
  endOpacity : ℚ
deriving DecidableEq, Repr

structure OutlineParams where
  thickness : ℤ
  color : ℕ × ℕ × ℕ × ℕ
deriving DecidableEq, Repr

structure BackgroundEffectParams where
  padding : ℤ
  radius : ℤ
  opacity : ℚ
  blur : ℤ
deriving DecidableEq, Repr

/-- `self.default_effects_params`. -/
structure EffectsParams where
  shadow : ShadowParams
  glow : GlowParams
  gradient : GradientParams
  outline : OutlineParams
  background : BackgroundEffectParams
deriving DecidableEq, Repr

/-- The dictionary `TextEffectsEngine.__init__` installs. -/
def initEffectsParams : EffectsParams :=
  { shadow := ⟨2, 3, (0, 0, 0, 150)⟩,
    glow := ⟨5, 7 / 10, (255, 255, 255, 100)⟩,
    gradient := ⟨"vertical", 1, 7 / 10⟩,
    outline := ⟨1, (255, 255, 255, 180)⟩,
    background := ⟨15, 8, 7 / 10, 0⟩ }

/-- A `treatment_params` dictionary restricted to the keys the shadow update
keeps (`{k: v for k, v in params.items() if k in shadow_params}` filters to
`offset`, `blur_radius`, `color`); an absent key is `none`. -/
structure ShadowOverrides where
  offset : Option ℤ
  blurRadius : Option ℤ
  color : Option (ℕ × ℕ × ℕ × ℕ)
deriving DecidableEq, Repr

/-- `params = params or {}`. -/
def emptyOverrides : ShadowOverrides := ⟨none, none, none⟩

/-- The state effect of `_apply_shadow_effect`: `shadow_params =
self.default_effects_params['shadow']` binds the dictionary itself (an alias,
not a copy), so the `shadow_params.update(...)` on line 1065 writes through to
the engine's defaults.  Returns the updated engine state together with the
shadow parameters actually used for drawing.  (When `params` is empty the
`if params:` guard skips the update, which coincides with updating by
nothing.) -/
def applyShadowEffect (st : EffectsParams) (params : Option ShadowOverrides) :
    EffectsParams × ShadowParams :=
  let p := params.getD emptyOverrides
  let updated : ShadowParams :=
    { offset := p.offset.getD st.shadow.offset,
      blurRadius := p.blurRadius.getD st.shadow.blurRadius,
      color := p.color.getD st.shadow.color }
  ({ st with shadow := updated }, updated)

/-- The treatments `apply_text_effect` dispatches to handlers that never read
or write `default_effects_params`. -/
def statePreservingTreatments : List String :=
  ["premium_gradient", "luxury_metallic", "elegant_shadow", "subtle_glow",
   "layered_gradient", "premium_outline", "glass_effect", "subtle_bg",
   "minimal_elegant", "vibrant_overlay", "gradient", "outline", "glow",
   "simple"]

/-- The effect of `apply_text_effect` on the engine state: every branch except
`"shadow"` and the default (`else`) leaves `default_effects_params` untouched;
those two call `_apply_shadow_effect`, whose aliased update mutates it. -/
def applyTextEffectState (st : EffectsParams) (treatment : String)
    (params : Option ShadowOverrides) : EffectsParams :=
  if treatment ∈ statePreservingTreatments then st
  else (applyShadowEffect st params).1

/-- C10: applying the shadow treatment mutates the engine's defaults.  The
initial defaults are offset 2, blur_radius 3, color (0, 0, 0, 150); calling
`apply_text_effect` with treatment `"shadow"` and custom offset/blur/color
permanently overwrites `default_effects_params['shadow']`, and a subsequent
shadow call without parameters uses the previously supplied custom values
instead of the original defaults. -/
theorem shadowEffect_mutates_defaults (o b : ℤ) (c : ℕ × ℕ × ℕ × ℕ)
    (st : EffectsParams) :
    initEffectsParams.shadow = ⟨2, 3, (0, 0, 0, 150)⟩
    ∧ (applyTextEffectState st "shadow" (some ⟨some o, some b, some c⟩)).shadow
        = ⟨o, b, c⟩
    ∧ (applyShadowEffect
        (applyTextEffectState st "shadow" (some ⟨some o, some b, some c⟩)) none).2
        = ⟨o, b, c⟩
    ∧ (applyTextEffectState
        (applyTextEffectState st "shadow" (some ⟨some o, some b, some c⟩))
        "shadow" none).shadow = ⟨o, b, c⟩ := by
  have hns : ¬("shadow" ∈ statePreservingTreatments) := by decide
  refine ⟨rfl, ?_, ?_, ?_⟩ <;>
    simp [applyTextEffectState, applyShadowEffect, emptyOverrides, hns]

end ContentEngine
